import Mathlib

/-!
Shallow embedding of the bluebooth event loop (src/main.rs of the
LeoDog896/bluebooth repository).

The program keeps a shared map from Bluetooth device addresses to device
handles, mutated only by a single event loop (main, src/main.rs lines
200 to 231).  The loop races a discovery stream of adapter events against
a merged collection of per-device change streams.  External calls
(adapter.device, device.set_alias) are modelled by oracles; the tokio
RwLock operations are modelled as sequential, since the whole loop runs
on one thread of control; a Rust todo bang macro arm is modelled as a
distinguished panic outcome; the Rust question-mark operator is modelled
by an aborted flag on the loop output.
-/

namespace Bluebooth

/-- Bluetooth device address (bluer Address), an opaque comparable id. -/
abbrev Address := Nat

/-- A device handle as returned by adapter.device (src/main.rs line 29).
The only attribute the loop mutates locally is the alias, via set_alias
inside change_info (src/main.rs lines 147 and 158). -/
structure Device where
  addr : Address
  aliasVal : String
deriving DecidableEq

/-- The shared HashMap from Address to Device
(ThreadSafeBlueboothDeviceMap, src/main.rs lines 72 to 77), modelled as
an association list; set_info and remove_info keep at most one binding
per key. -/
abbrev Table := List (Address × Device)

/-- HashMap get on the shared map (devices.get at src/main.rs line 138,
and the read used by print_table): first binding for the key, if any. -/
def lookupTable (a : Address) : Table → Option Device
  | [] => none
  | (k, v) :: rest => if k = a then some v else lookupTable a rest

/-- set_info (src/main.rs lines 110 to 119): insert or overwrite the
record for the given address (HashMap insert). -/
def set_info (address : Address) (device : Device) (t : Table) : Table :=
  (address, device) :: t.filter (fun p => p.1 != address)

/-- remove_info (src/main.rs lines 121 to 129): delete the record for
the given address if present (HashMap remove). -/
def remove_info (address : Address) (t : Table) : Table :=
  t.filter (fun p => p.1 != address)

/-- bluer DeviceProperty as matched by change_info
(src/main.rs lines 146 to 168).  Payloads are kept only where the code
uses them (name and alias feed set_alias) or where a claim mentions the
value (connected). -/
inductive DeviceProperty where
  | name (s : String)
  | addressType
  | icon
  | deviceClass
  | appearance
  | uuids
  | paired
  | connected (b : Bool)
  | trusted
  | blocked
  | wakeAllowed
  | aliasProp (s : String)
  | legacyPairing
  | modalias
  | rssi
  | txPower
  | manufacturerData
  | serviceData
  | servicesResolved
  | advertisingFlags
  | advertisingData
deriving DecidableEq

/-- Outcome of change_info: ok or error both carry the table the call
leaves behind; panic models a todo bang arm, which aborts the process. -/
inductive ChangeResult where
  | ok (t : Table)
  | error (t : Table)
  | panic
deriving DecidableEq

/-- change_info (src/main.rs lines 131 to 173).  An absent address
returns Ok at line 139 without touching the table.  For a present
device, the Name and Alias arms call set_alias (an external call whose
success is the oracle aliasOk; on failure the question mark at lines 147
and 158 returns the error before the insert at line 170); every other
arm is a todo bang macro, which panics.  On set_alias success the
mutated handle is re-inserted (line 170). -/
def change_info (address : Address) (t : Table) (property : DeviceProperty)
    (aliasOk : Bool) : ChangeResult :=
  match lookupTable address t with
  | none => .ok t
  | some device =>
    match property with
    | .name s =>
        if aliasOk then .ok (set_info address { device with aliasVal := s } t)
        else .error t
    | .aliasProp s =>
        if aliasOk then .ok (set_info address { device with aliasVal := s } t)
        else .error t
    | _ => .panic

/-- bluer AdapterEvent: DeviceAdded, DeviceRemoved, or an adapter
property change (the wildcard arm at src/main.rs line 222); the payload
of the third form is irrelevant to the loop and kept opaque. -/
inductive AdapterEvent where
  | deviceAdded (addr : Address)
  | deviceRemoved (addr : Address)
  | propertyChanged (p : Nat)
deriving DecidableEq

/-- Observable side effects of one dispatch of a discovery event:
fetch is a call to adapter.device, upsert a set_info call, render a
print_table call, register a push into the SelectAll of change streams,
remove a remove_info call. -/
inductive Action where
  | fetch (addr : Address)
  | upsert (addr : Address)
  | render
  | register (addr : Address)
  | remove (addr : Address)
deriving DecidableEq

/-- State of the event loop: the shared table, the multiset of
registered change streams (by device address, in push order;
SelectAll at src/main.rs line 198), and how many renders have run. -/
structure LoopState where
  table : Table
  registry : List Address
  renders : Nat
deriving DecidableEq

/-- Result of dispatching one event: the emitted side effects in order,
the resulting state, and whether the question-mark operator aborted the
loop with an error. -/
structure StepOut where
  trace : List Action
  state : LoopState
  aborted : Bool
deriving DecidableEq

/-- The loop starts with an empty table and no registered streams
(src/main.rs lines 177 and 198). -/
def initState : LoopState := ⟨[], [], 0⟩

/-- Dispatch of one discovery event (src/main.rs lines 202 to 225).
DeviceAdded: the allow-list guard at lines 205 to 207 skips the event
before any side effect; otherwise get_device at line 209 (oracle fetchO;
on None the question mark aborts the loop), then set_info, print_table,
a second adapter.device call at line 214 (same oracle, which succeeded),
and the push into the stream set at line 216.  DeviceRemoved (lines 218
to 221): remove_info then print_table, with no allow-list check.  Any
other adapter event is ignored (line 222). -/
def dispatchDiscovery (filter_addr : List Address)
    (fetchO : Address → Option Device) (s : LoopState) :
    AdapterEvent → StepOut
  | .deviceAdded addr =>
    if filter_addr ≠ [] ∧ addr ∉ filter_addr then
      ⟨[], s, false⟩
    else
      match fetchO addr with
      | none => ⟨[Action.fetch addr], s, true⟩
      | some device =>
        ⟨[Action.fetch addr, Action.upsert addr, Action.render,
          Action.fetch addr, Action.register addr],
         { table := set_info addr device s.table,
           registry := s.registry ++ [addr],
           renders := s.renders + 1 }, false⟩
  | .deviceRemoved addr =>
    ⟨[Action.remove addr, Action.render],
     { s with table := remove_info addr s.table, renders := s.renders + 1 },
     false⟩
  | .propertyChanged _ => ⟨[], s, false⟩

/-- Run the loop over a finite sequence of discovery events, stopping
early when a question mark aborts it. -/
structure RunOut where
  state : LoopState
  aborted : Bool
deriving DecidableEq

/-- Fold dispatchDiscovery over the events, in order. -/
def runEvents (filter_addr : List Address)
    (fetchO : Address → Option Device) :
    LoopState → List AdapterEvent → RunOut
  | s, [] => ⟨s, false⟩
  | s, e :: rest =>
    let o := dispatchDiscovery filter_addr fetchO s e
    if o.aborted then ⟨o.state, true⟩
    else runEvents filter_addr fetchO o.state rest

/-- Dispatch of one merged change event (src/main.rs lines 226 to 228):
change_info is called and its Result is dropped (no question mark), so
an error result leaves the loop running; a panic aborts the process. -/
def handleChange (s : LoopState) (addr : Address)
    (property : DeviceProperty) (aliasOk : Bool) : StepOut :=
  match change_info addr s.table property aliasOk with
  | .ok t => ⟨[], { s with table := t }, false⟩
  | .error t => ⟨[], { s with table := t }, false⟩
  | .panic => ⟨[], s, true⟩

/-- An address is present in the table when lookup finds a record. -/
def present (t : Table) (a : Address) : Bool :=
  (lookupTable a t).isSome

/-- Modelled from the spec wording of C5: the most recent Added or
Removed discovery event for an address, ignoring the allow-list; some
true means the last such event was an Added, some false a Removed, none
that no discovery event mentioned the address. -/
def lastDisc (a : Address) : List AdapterEvent → Option Bool
  | [] => none
  | e :: rest =>
    match lastDisc a rest with
    | some b => some b
    | none =>
      match e with
      | .deviceAdded b => if b = a then some true else none
      | .deviceRemoved b => if b = a then some false else none
      | .propertyChanged _ => none

/-- The net effect of the most recent table mutation for an address
under the code: an Added event mutates the table only when it passes the
allow-list guard. -/
def lastEffect (filter_addr : List Address) (a : Address) :
    List AdapterEvent → Option Bool
  | [] => none
  | e :: rest =>
    match lastEffect filter_addr a rest with
    | some b => some b
    | none =>
      match e with
      | .deviceAdded b =>
        if b = a ∧ (filter_addr = [] ∨ b ∈ filter_addr) then some true
        else none
      | .deviceRemoved b => if b = a then some false else none
      | .propertyChanged _ => none

/-- Sample device handle used for concrete runs. -/
def dev0 : Device := { addr := 1, aliasVal := "" }

/-! Helper lemmas about the table operations. -/

lemma lookupTable_filter_ne (a b : Address) (h : a ≠ b) :
    ∀ t : Table, lookupTable a (t.filter (fun p => p.1 != b)) = lookupTable a t := by
  intro t
  induction t with
  | nil => rfl
  | cons p rest ih =>
    obtain ⟨k, v⟩ := p
    by_cases hk : k = b
    · have hpred : ((k, v).1 != b) = false := by simpa using hk
      rw [List.filter_cons, hpred, if_neg (by simp)]
      rw [ih, lookupTable, if_neg (fun hc => h (hc.symm.trans hk))]
    · have hpred : ((k, v).1 != b) = true := by simpa using hk
      rw [List.filter_cons, hpred, if_pos rfl]
      by_cases hka : k = a
      · subst hka
        rw [lookupTable, if_pos rfl, lookupTable, if_pos rfl]
      · rw [lookupTable, if_neg hka, lookupTable, if_neg hka, ih]

lemma lookupTable_set_info_self (a : Address) (d : Device) (t : Table) :
    lookupTable a (set_info a d t) = some d := by
  rw [set_info, lookupTable, if_pos rfl]

lemma lookupTable_set_info_other (a b : Address) (d : Device) (t : Table)
    (h : b ≠ a) : lookupTable b (set_info a d t) = lookupTable b t := by
  rw [set_info, lookupTable, if_neg (fun hc => h hc.symm)]
  exact lookupTable_filter_ne b a h t

lemma lookupTable_remove_info_self (a : Address) (t : Table) :
    lookupTable a (remove_info a t) = none := by
  induction t with
  | nil => rfl
  | cons p rest ih =>
    obtain ⟨k, v⟩ := p
    by_cases hk : k = a
    · subst hk
      have hpred : ((k, v).1 != k) = false := by simp
      rw [remove_info, List.filter_cons, hpred, if_neg (by simp)]
      exact ih
    · have hpred : ((k, v).1 != a) = true := by simpa using hk
      rw [remove_info, List.filter_cons, hpred, if_pos rfl, lookupTable,
        if_neg hk]
      exact ih

lemma lookupTable_remove_info_other (a b : Address) (t : Table) (h : b ≠ a) :
    lookupTable b (remove_info a t) = lookupTable b t :=
  lookupTable_filter_ne b a h t

/-! Helper lemmas about one dispatch step. -/

lemma dispatch_added_skip (f : List Address) (fetchO : Address → Option Device)
    (s : LoopState) (a : Address) (hne : f ≠ []) (hni : a ∉ f) :
    dispatchDiscovery f fetchO s (.deviceAdded a) = ⟨[], s, false⟩ := by
  rw [dispatchDiscovery, if_pos ⟨hne, hni⟩]

lemma dispatch_added_fail (f : List Address) (fetchO : Address → Option Device)
    (s : LoopState) (a : Address) (hpass : f = [] ∨ a ∈ f)
    (hfail : fetchO a = none) :
    dispatchDiscovery f fetchO s (.deviceAdded a) =
      ⟨[Action.fetch a], s, true⟩ := by
  have hguard : ¬(f ≠ [] ∧ a ∉ f) := by
    rintro ⟨h1, h2⟩
    cases hpass with
    | inl h => exact h1 h
    | inr h => exact h2 h
  rw [dispatchDiscovery, if_neg hguard, hfail]

lemma dispatch_added_ok (f : List Address) (fetchO : Address → Option Device)
    (s : LoopState) (a : Address) (d : Device) (hpass : f = [] ∨ a ∈ f)
    (hd : fetchO a = some d) :
    dispatchDiscovery f fetchO s (.deviceAdded a) =
      ⟨[Action.fetch a, Action.upsert a, Action.render,
        Action.fetch a, Action.register a],
       { table := set_info a d s.table,
         registry := s.registry ++ [a],
         renders := s.renders + 1 }, false⟩ := by
  have hguard : ¬(f ≠ [] ∧ a ∉ f) := by
    rintro ⟨h1, h2⟩
    cases hpass with
    | inl h => exact h1 h
    | inr h => exact h2 h
  rw [dispatchDiscovery, if_neg hguard, hd]

lemma runEvents_cons (f : List Address) (fetchO : Address → Option Device)
    (s : LoopState) (e : AdapterEvent) (rest : List AdapterEvent)
    (h : (dispatchDiscovery f fetchO s e).aborted = false) :
    runEvents f fetchO s (e :: rest) =
      runEvents f fetchO (dispatchDiscovery f fetchO s e).state rest := by
  rw [runEvents]
  simp only [h, Bool.false_eq_true, if_false]

lemma pass_or_skip (f : List Address) (a : Address) :
    (f = [] ∨ a ∈ f) ∨ (f ≠ [] ∧ a ∉ f) := by
  by_cases h1 : f = []
  · exact Or.inl (Or.inl h1)
  · by_cases h2 : a ∈ f
    · exact Or.inl (Or.inr h2)
    · exact Or.inr ⟨h1, h2⟩

lemma fetch_total (fetchO : Address → Option Device)
    (hf : ∀ x, (fetchO x).isSome) (a : Address) : ∃ d, fetchO a = some d := by
  cases hd : fetchO a with
  | none => have := hf a; rw [hd] at this; simp at this
  | some d => exact ⟨d, rfl⟩

lemma dispatch_no_abort (f : List Address) (fetchO : Address → Option Device)
    (hf : ∀ x, (fetchO x).isSome) (s : LoopState) (e : AdapterEvent) :
    (dispatchDiscovery f fetchO s e).aborted = false := by
  cases e with
  | deviceAdded a =>
    cases pass_or_skip f a with
    | inl hpass =>
      obtain ⟨d, hd⟩ := fetch_total fetchO hf a
      rw [dispatch_added_ok f fetchO s a d hpass hd]
    | inr hskip =>
      rw [dispatch_added_skip f fetchO s a hskip.1 hskip.2]
  | deviceRemoved a => rfl
  | propertyChanged p => rfl

lemma runEvents_no_abort (f : List Address) (fetchO : Address → Option Device)
    (hf : ∀ x, (fetchO x).isSome) :
    ∀ (evts : List AdapterEvent) (s : LoopState),
      (runEvents f fetchO s evts).aborted = false := by
  intro evts
  induction evts with
  | nil => intro s; rfl
  | cons e rest ih =>
    intro s
    rw [runEvents_cons f fetchO s e rest (dispatch_no_abort f fetchO hf s e)]
    exact ih _

lemma runEvents_present (f : List Address) (fetchO : Address → Option Device)
    (hf : ∀ x, (fetchO x).isSome) (a : Address) :
    ∀ (evts : List AdapterEvent) (s : LoopState),
      present (runEvents f fetchO s evts).state.table a =
        (match lastEffect f a evts with
         | some b => b
         | none => present s.table a) := by
  intro evts
  induction evts with
  | nil => intro s; rfl
  | cons e rest ih =>
    intro s
    rw [runEvents_cons f fetchO s e rest (dispatch_no_abort f fetchO hf s e)]
    rw [ih]
    cases e with
    | deviceAdded b =>
      cases pass_or_skip f b with
      | inl hpass =>
        obtain ⟨d, hd⟩ := fetch_total fetchO hf b
        rw [dispatch_added_ok f fetchO s b d hpass hd]
        by_cases hba : b = a
        · have heff : (if b = a ∧ (f = [] ∨ b ∈ f) then some true
              else (none : Option Bool)) = some true := if_pos ⟨hba, hpass⟩
          simp only [lastEffect, heff]
          cases hle : lastEffect f a rest with
          | some c => rfl
          | none =>
            simp only [present]
            rw [hba, lookupTable_set_info_self]
            rfl
        · have heff : (if b = a ∧ (f = [] ∨ b ∈ f) then some true
              else (none : Option Bool)) = none := if_neg (fun hc => hba hc.1)
          simp only [lastEffect, heff]
          cases hle : lastEffect f a rest with
          | some c => rfl
          | none =>
            simp only [present]
            rw [lookupTable_set_info_other b a d s.table
              (fun hc => hba hc.symm)]
      | inr hskip =>
        rw [dispatch_added_skip f fetchO s b hskip.1 hskip.2]
        have heff : (if b = a ∧ (f = [] ∨ b ∈ f) then some true
            else (none : Option Bool)) = none := by
          rw [if_neg]
          rintro ⟨hba, hp⟩
          cases hp with
          | inl h1 => exact hskip.1 h1
          | inr h2 => exact hskip.2 h2
        simp only [lastEffect, heff]
        cases hle : lastEffect f a rest with
        | some c => rfl
        | none => rfl
    | deviceRemoved b =>
      by_cases hba : b = a
      · have heff : (if b = a then some false else (none : Option Bool))
            = some false := if_pos hba
        simp only [lastEffect, heff]
        cases hle : lastEffect f a rest with
        | some c => rfl
        | none =>
          simp only [present, dispatchDiscovery]
          rw [hba, lookupTable_remove_info_self]
          rfl
      · have heff : (if b = a then some false else (none : Option Bool))
            = none := if_neg hba
        simp only [lastEffect, heff]
        cases hle : lastEffect f a rest with
        | some c => rfl
        | none =>
          simp only [present, dispatchDiscovery]
          rw [lookupTable_remove_info_other b a s.table (fun hc => hba hc.symm)]
    | propertyChanged p =>
      simp only [lastEffect]
      cases hle : lastEffect f a rest with
      | some c => rfl
      | none => rfl

lemma lastEffect_eq_lastDisc (f : List Address) (a : Address)
    (hpass : f = [] ∨ a ∈ f) :
    ∀ evts, lastEffect f a evts = lastDisc a evts := by
  intro evts
  induction evts with
  | nil => rfl
  | cons e rest ih =>
    cases e with
    | deviceAdded b =>
      simp only [lastEffect, lastDisc, ih]
      cases hld : lastDisc a rest with
      | some c => rfl
      | none =>
        by_cases hba : b = a
        · rw [if_pos ⟨hba, hba ▸ hpass⟩, if_pos hba]
        · rw [if_neg (fun hc => hba hc.1), if_neg hba]
    | deviceRemoved b =>
      simp only [lastEffect, lastDisc, ih]
    | propertyChanged p =>
      simp only [lastEffect, lastDisc, ih]

lemma lastEffect_filtered_ne_true (f : List Address) (a : Address)
    (hne : f ≠ []) (hni : a ∉ f) :
    ∀ evts, lastEffect f a evts ≠ some true := by
  intro evts
  induction evts with
  | nil => exact fun hc => Option.noConfusion hc
  | cons e rest ih =>
    cases e with
    | deviceAdded b =>
      simp only [lastEffect]
      cases hle : lastEffect f a rest with
      | some c =>
        rw [hle] at ih
        exact ih
      | none =>
        have hng : ¬(b = a ∧ (f = [] ∨ b ∈ f)) := by
          rintro ⟨hba, hp⟩
          cases hp with
          | inl h1 => exact hne h1
          | inr h2 => exact hni (hba ▸ h2)
        rw [if_neg hng]
        exact fun hc => Option.noConfusion hc
    | deviceRemoved b =>
      simp only [lastEffect]
      cases hle : lastEffect f a rest with
      | some c =>
        rw [hle] at ih
        exact ih
      | none =>
        by_cases hba : b = a
        · rw [if_pos hba]
          exact fun hc => Bool.noConfusion (Option.some.inj hc)
        · rw [if_neg hba]
          exact fun hc => Option.noConfusion hc
    | propertyChanged p =>
      simp only [lastEffect]
      cases hle : lastEffect f a rest with
      | some c =>
        rw [hle] at ih
        exact ih
      | none => exact fun hc => Option.noConfusion hc

/-! Claim theorems. -/

/-- C1: the claim states that apply_change merges the single changed
field for a present identifier and completes without failing for every
property kind; the code instead reaches a todo bang arm
(src/main.rs line 154) and panics on a Connected property change for a
present identifier.  This theorem evaluates the embedded change_info at
that failing input. -/
theorem C1_connected_change_panics :
    change_info 1 [(1, dev0)] (DeviceProperty.connected true) true
      = ChangeResult.panic := rfl

/-- C2 counterexample: with an empty allow-list and a fetch that fails
for every address, a single Added(1) event makes the loop abort with an
error (the question mark at src/main.rs line 209), so the claim that the
loop neither terminates nor returns an error is false; the table is
nevertheless unchanged. -/
theorem C2_counterexample :
    runEvents [] (fun _ => none) initState [AdapterEvent.deviceAdded 1]
      = ⟨initState, true⟩ := by decide

/-- C2 amended: for every Added event that passes the allow-list and
whose fetch fails, the event performs no upsert, no render and no
registration and leaves the state unchanged, but the loop aborts with
the error instead of continuing. -/
theorem C2_fetch_failure_aborts (f : List Address)
    (fetchO : Address → Option Device) (s : LoopState) (a : Address)
    (hpass : f = [] ∨ a ∈ f) (hfail : fetchO a = none) :
    dispatchDiscovery f fetchO s (.deviceAdded a)
      = ⟨[Action.fetch a], s, true⟩ :=
  dispatch_added_fail f fetchO s a hpass hfail

/-- C2 witness: the amended statement at the concrete failing fetch. -/
theorem C2_fetch_failure_aborts_witness :
    dispatchDiscovery [] (fun _ => none) initState (AdapterEvent.deviceAdded 5)
      = ⟨[Action.fetch 5], initState, true⟩ :=
  C2_fetch_failure_aborts [] (fun _ => none) initState 5 (Or.inl rfl) rfl

/-- C3 counterexample: with allow-list containing only address 2, a
Removed(1) event is not ignored: the removal call and a render both
happen (the render counter increases), so the claim that no removal and
no render occur is false. -/
theorem C3_counterexample :
    dispatchDiscovery [2] (fun _ => none) initState
        (AdapterEvent.deviceRemoved 1)
      = ⟨[Action.remove 1, Action.render], ⟨[], [], 1⟩, false⟩ := by decide

/-- C3 amended: the removal path applies no allow-list check at all
(src/main.rs lines 218 to 221): every Removed event removes the record
if present and triggers a render, whatever the allow-list contains; for
a filtered-out identifier the table itself is unchanged only because the
identifier was never inserted. -/
theorem C3_removed_unfiltered (f : List Address)
    (fetchO : Address → Option Device) (s : LoopState) (a : Address) :
    dispatchDiscovery f fetchO s (.deviceRemoved a)
      = ⟨[Action.remove a, Action.render],
         { s with table := remove_info a s.table, renders := s.renders + 1 },
         false⟩ := rfl

/-- C4 counterexample: processing Added(1) twice with an empty allow-list
and succeeding fetches registers two change streams for address 1, so
the claim that at most one stream per identifier is ever active is
false. -/
theorem C4_counterexample :
    ((runEvents [] (fun _ => some dev0) initState
        [AdapterEvent.deviceAdded 1,
         AdapterEvent.deviceAdded 1]).state.registry).count 1 = 2 := by decide

/-- C4 amended: every successfully processed Added event pushes a fresh
change stream for its address into the registry (src/main.rs line 216),
so re-processing Added(id) admits a second stream for the same
identifier and events can be delivered once per admitted stream. -/
theorem C4_register_on_every_add (f : List Address)
    (fetchO : Address → Option Device) (s : LoopState) (a : Address)
    (d : Device) (hpass : f = [] ∨ a ∈ f) (hd : fetchO a = some d) :
    (dispatchDiscovery f fetchO s (.deviceAdded a)).state.registry
      = s.registry ++ [a] := by
  rw [dispatch_added_ok f fetchO s a d hpass hd]

/-- C4 witness: the amended statement at a concrete successful add. -/
theorem C4_register_on_every_add_witness :
    (dispatchDiscovery [] (fun _ => some dev0) initState
        (AdapterEvent.deviceAdded 1)).state.registry
      = initState.registry ++ [1] :=
  C4_register_on_every_add [] (fun _ => some dev0) initState 1 dev0
    (Or.inl rfl) rfl

/-- C5: for every finite sequence of discovery events with all fetches
succeeding, the loop never aborts and an address is present in the table
after processing exactly when its most recent Added or Removed discovery
event is an Added and the address passes the allow-list (empty list
accepts all). -/
theorem C5_table_after_processing (f : List Address)
    (fetchO : Address → Option Device) (evts : List AdapterEvent)
    (a : Address) (hf : ∀ x, (fetchO x).isSome) :
    (runEvents f fetchO initState evts).aborted = false ∧
      (present (runEvents f fetchO initState evts).state.table a = true ↔
        (lastDisc a evts = some true ∧ (f = [] ∨ a ∈ f))) := by
  refine ⟨runEvents_no_abort f fetchO hf evts initState, ?_⟩
  rw [runEvents_present f fetchO hf a evts initState]
  cases pass_or_skip f a with
  | inl hpass =>
    rw [lastEffect_eq_lastDisc f a hpass]
    cases hld : lastDisc a evts with
    | none => simp [present, initState, lookupTable]
    | some b =>
      cases b with
      | false => simp
      | true => simp [hpass]
  | inr hskip =>
    have hnt := lastEffect_filtered_ne_true f a hskip.1 hskip.2 evts
    have hrhs : ¬(lastDisc a evts = some true ∧ (f = [] ∨ a ∈ f)) := by
      rintro ⟨-, hp⟩
      cases hp with
      | inl h1 => exact hskip.1 h1
      | inr h2 => exact hskip.2 h2
    cases hle : lastEffect f a evts with
    | none => simp [present, initState, lookupTable, hrhs]
    | some b =>
      cases b with
      | false => simp [hrhs]
      | true => exact absurd hle hnt

/-- C5 witness: after Added(2), Added(1), Removed(1) with empty
allow-list, address 2 is present in the table. -/
theorem C5_table_after_processing_witness :
    present ((runEvents [] (fun _ => some dev0) initState
        [AdapterEvent.deviceAdded 2, AdapterEvent.deviceAdded 1,
         AdapterEvent.deviceRemoved 1]).state.table) 2 = true :=
  (C5_table_after_processing [] (fun _ => some dev0)
      [AdapterEvent.deviceAdded 2, AdapterEvent.deviceAdded 1,
       AdapterEvent.deviceRemoved 1] 2 (fun _ => rfl)).2.mpr
    ⟨by decide, Or.inl rfl⟩

/-- C6: an Added event for an address outside a non-empty allow-list has
no observable effect: no fetch, no upsert, no registration, no render,
state unchanged, loop not aborted (the guard at src/main.rs lines 205 to
207 runs before every side effect). -/
theorem C6_filtered_add_no_effect (f : List Address)
    (fetchO : Address → Option Device) (s : LoopState) (a : Address)
    (hne : f ≠ []) (hni : a ∉ f) :
    dispatchDiscovery f fetchO s (.deviceAdded a) = ⟨[], s, false⟩ :=
  dispatch_added_skip f fetchO s a hne hni

/-- C6 witness: allow-list containing only 2 and Added(1). -/
theorem C6_filtered_add_no_effect_witness :
    dispatchDiscovery [2] (fun _ => none) initState
        (AdapterEvent.deviceAdded 1)
      = ⟨[], initState, false⟩ :=
  C6_filtered_add_no_effect [2] (fun _ => none) initState 1 (by decide)
    (by decide)

/-- C7: a change event for an address absent from the table is a silent
no-op: change_info returns Ok with the table exactly unchanged and never
creates a record (src/main.rs lines 136 to 141). -/
theorem C7_absent_change_noop (t : Table) (a : Address)
    (p : DeviceProperty) (aliasOk : Bool) (h : lookupTable a t = none) :
    change_info a t p aliasOk = ChangeResult.ok t := by
  simp only [change_info, h]

/-- C7 witness: a Connected change for address 3 on the empty table. -/
theorem C7_absent_change_noop_witness :
    change_info 3 [] (DeviceProperty.connected true) true
      = ChangeResult.ok [] :=
  C7_absent_change_noop [] 3 (DeviceProperty.connected true) true rfl

/-- C8 counterexample: on a concrete successful Added(1), the dispatch
trace is fetch, upsert, render, fetch, register, in which the render
strictly precedes the stream registration; the claimed order (upsert,
then register, and only then render) is therefore false. -/
theorem C8_counterexample :
    (dispatchDiscovery [] (fun _ => some dev0) initState
        (AdapterEvent.deviceAdded 1)).trace
      = [Action.fetch 1, Action.upsert 1, Action.render,
         Action.fetch 1, Action.register 1] ∧
    List.indexOf Action.render
        (dispatchDiscovery [] (fun _ => some dev0) initState
          (AdapterEvent.deviceAdded 1)).trace
      < List.indexOf (Action.register 1)
        (dispatchDiscovery [] (fun _ => some dev0) initState
          (AdapterEvent.deviceAdded 1)).trace := by decide

/-- C8 amended: for every Added event that passes the allow-list with a
succeeding fetch, the dispatcher fetches, upserts the record, triggers
the render, fetches the handle again, and only then registers the change
stream (src/main.rs lines 209 to 216). -/
theorem C8_upsert_render_register_order (f : List Address)
    (fetchO : Address → Option Device) (s : LoopState) (a : Address)
    (d : Device) (hpass : f = [] ∨ a ∈ f) (hd : fetchO a = some d) :
    (dispatchDiscovery f fetchO s (.deviceAdded a)).trace
      = [Action.fetch a, Action.upsert a, Action.render,
         Action.fetch a, Action.register a] := by
  rw [dispatch_added_ok f fetchO s a d hpass hd]

/-- C8 witness: the amended trace at a concrete successful add. -/
theorem C8_upsert_render_register_order_witness :
    (dispatchDiscovery [] (fun _ => some dev0) initState
        (AdapterEvent.deviceAdded 3)).trace
      = [Action.fetch 3, Action.upsert 3, Action.render,
         Action.fetch 3, Action.register 3] :=
  C8_upsert_render_register_order [] (fun _ => some dev0) initState 3 dev0
    (Or.inl rfl) rfl

/-- C9: the loop drops the Result of change_info (src/main.rs line 227):
whenever change_info returns an error result, the dispatch of the change
event continues exactly like a success, with the table change_info left
behind, an empty side-effect trace, and no abort. -/
theorem C9_change_error_discarded (s : LoopState) (a : Address)
    (p : DeviceProperty) (aliasOk : Bool) (t : Table)
    (h : change_info a s.table p aliasOk = ChangeResult.error t) :
    handleChange s a p aliasOk = ⟨[], { s with table := t }, false⟩ := by
  simp only [handleChange, h]

/-- C9 witness: a failing set_alias on a present address yields an error
result that the loop discards, leaving the table unchanged and the loop
running. -/
theorem C9_change_error_discarded_witness :
    handleChange ⟨[(1, dev0)], [], 0⟩ 1 (DeviceProperty.name "x") false
      = ⟨[], ⟨[(1, dev0)], [], 0⟩, false⟩ :=
  C9_change_error_discarded ⟨[(1, dev0)], [], 0⟩ 1 (DeviceProperty.name "x")
    false [(1, dev0)] (by decide)

/-- C10: a discovery event that is neither DeviceAdded nor DeviceRemoved
falls into the wildcard arm (src/main.rs line 222): the state is
unchanged, no side effect is emitted, and the loop is not aborted. -/
theorem C10_other_events_ignored (f : List Address)
    (fetchO : Address → Option Device) (s : LoopState) (p : Nat) :
    dispatchDiscovery f fetchO s (.propertyChanged p) = ⟨[], s, false⟩ := rfl

end Bluebooth
